import Mathlib

/-!
Verification development for the Analitika-Viteka pipeline.

Shallow embedding of the core of the repository:
  * `src/src/models.py`          — configuration data model
  * `src/src/excel_processor.py` — fuzzy city matching, data collection, `process_all`
  * `src/src/output_generator.py`— layout engine, markups sheet, formula generation

Conventions of the embedding:
  * openpyxl cell values are `Option CellValue` (`none` = empty cell / Python `None`);
    numeric cell values and numeric configuration values (markup percentages) are
    modelled as `Int` (Python `float` decimal reprs are outside the model, only the
    integer case is embedded; no arithmetic is ever performed on them, they are
    only tested against zero and interpolated into formula text).
  * a competitor's source workbook is `Option Sheet`; `none` models a missing or
    unreadable file (the code catches the exception and returns the empty dict).
  * `thefuzz.fuzz.WRatio` and Python's `str.lower` are external-library functions;
    they are parameters of the embedding (`FuzzyEnv`), so every theorem holds for
    an arbitrary similarity function, exactly as the code treats it as a black box.
  * Python dicts (insertion ordered) are association lists; dict truthiness and
    Python cell truthiness (`if not cell_value`) are modelled explicitly.
  * formula strings written to cells are kept structured (`CellContent`) together
    with a `render` function producing exactly the f-string text of the source.
-/

namespace Viteka

/-! ## Definitions: the shallow embedding and specification-side notions -/

/-- A non-empty spreadsheet cell payload: numeric or text (openpyxl value). -/
inductive CellValue where
  | num (v : Int)
  | text (s : String)
deriving DecidableEq, Repr

/-- Python truthiness of a cell payload: `0` and `""` are falsy. -/
def CellValue.truthy : CellValue → Bool
  | .num v => v != 0
  | .text s => s != ""

/-- Python `str()` of a cell payload. -/
def CellValue.pyStr : CellValue → String
  | .num v => toString v
  | .text s => s

/-- A competitor's source worksheet: cell lookup by column letter and row, plus
`max_row`.  Rows are `Int` because configured row offsets are added to them. -/
structure Sheet where
  cell : String → Int → Option CellValue
  maxRow : Nat

/-- The two external string functions the matcher depends on:
`simScore` models `thefuzz.fuzz.WRatio` (weighted token-set ratio, 0–100) and
`lowerFn` models Python `str.lower`.  All matching theorems are parametric in
them. -/
structure FuzzyEnv where
  simScore : String → String → Nat
  lowerFn : String → String

/-- Model of `models.MarkupRow`: an extra derived row (label + percent) under a competitor. -/
structure MarkupRow where
  name : String := ""
  percent : Int := 0
deriving DecidableEq, Repr

/-- Model of `models.Markups`: per-field markup percentages of a competitor. -/
structure Markups where
  convert : Int := 0
  minimum_1 : Int := 0
  minimum_2 : Int := 0
  volume : Int := 0
  weight_100 : Int := 0
  weight_3000 : Int := 0
deriving DecidableEq, Repr

/-- Python `getattr(markups, field, 0)`. -/
def Markups.get (m : Markups) (field : String) : Int :=
  if field = "convert" then m.convert
  else if field = "minimum_1" then m.minimum_1
  else if field = "minimum_2" then m.minimum_2
  else if field = "volume" then m.volume
  else if field = "weight_100" then m.weight_100
  else if field = "weight_3000" then m.weight_3000
  else 0

/-- Model of `models.ColumnMapping`: source column letters, one per field. -/
structure ColumnMapping where
  city : String := "A"
  convert : String := "D"
  minimum_1 : String := "E"
  minimum_2 : String := "F"
  volume : String := "O"
  weight_100 : String := "P"
  weight_3000 : String := "Q"
deriving DecidableEq, Repr

/-- Model of `models.RowOffsets`: per-field row offsets added to the matched row. -/
structure RowOffsets where
  row_app : Int := 0
  row_1 : Int := 0
  row_2 : Int := 0
  row_3 : Int := 0
  row_4 : Int := 0
  row_5 : Int := 0
  row_6 : Int := 0
  row_7 : Int := 0
deriving DecidableEq, Repr

/-- Model of `models.OwnCompany`. -/
structure OwnCompany where
  name : String := "Новая Витэка"
  enabled : Bool := true
  markups : Markups := {}
deriving DecidableEq, Repr

/-- Model of `models.OutputConfig`. -/
structure OutputConfig where
  title : String := "Стоимость доставки"
  subtitle : String := ""
  start_row : Nat := 3
  city_column : String := "A"
  include_average : Bool := true
  average_row_offset : Nat := 1
  markups_sheet : Bool := true
deriving DecidableEq, Repr

/-- Model of `models.CompetitorConfig`.  The source file itself is supplied separately
(keyed by competitor name), so `file_path` is not part of the embedding; the
`special_conditions` dict is modelled by its list of keys (the code only tests
its truthiness). -/
structure CompetitorConfig where
  name : String
  enabled : Bool := true
  bold : Bool := false
  source_columns : ColumnMapping := {}
  target_columns : ColumnMapping := {}
  row_offsets : RowOffsets := {}
  fuzzy_match_threshold : Nat := 95
  markups : Markups := {}
  special_conditions : List String := []
  markup_rows : List MarkupRow := []
deriving DecidableEq, Repr

/-- Model of `models.AppConfig`.  `competitors` is the (insertion-ordered) value list of
the name-keyed dict; `cities` is the key list of the city dict. -/
structure AppConfig where
  output_file : String := ""
  template_file : String := ""
  competitors : List CompetitorConfig := []
  cities : List String := []
  city_aliases : List (String × List String) := []
  output_config : OutputConfig := {}
  own_company : OwnCompany := {}

/-- Model of `AppConfig.get_city_names`: canonical name first, then configured aliases. -/
def AppConfig.get_city_names (cfg : AppConfig) (city : String) : List String :=
  city :: ((cfg.city_aliases.lookup city).getD [])

/-- The enabled competitors, in configured order (`process_all` step 0). -/
def enabled_competitors (cfg : AppConfig) : List CompetitorConfig :=
  cfg.competitors.filter (·.enabled)

/-- Model of `OutputFileGenerator.FIELDS`: the fixed, ordered six-field set. -/
def FIELDS : List String :=
  ["convert", "minimum_1", "minimum_2", "volume", "weight_100", "weight_3000"]

/-- Model of `OutputFileGenerator.FIELD_NAMES`. -/
def FIELD_NAMES : String → String
  | "convert" => "Конверт"
  | "minimum_1" => "Посылка до 10 кг"
  | "minimum_2" => "1 место до 30 кг"
  | "volume" => "Груз до 0,5 куба"
  | "weight_100" => "Груз до 100 кг"
  | "weight_3000" => "Груз более 3000 кг"
  | _ => ""

/-- Fuel-bounded core of `openpyxl.utils.get_column_letter` (base-26 letters,
structural so that it evaluates in the kernel). -/
def columnLetterAux : Nat → Nat → String
  | 0, _ => ""
  | _ + 1, 0 => ""
  | fuel + 1, n => columnLetterAux fuel ((n - 1) / 26) ++
      String.mk [Char.ofNat (65 + (n - 1) % 26)]

/-- Model of `openpyxl.utils.get_column_letter`: 1 → "A", …, 26 → "Z", 27 → "AA". -/
def get_column_letter (n : Nat) : String := columnLetterAux n n

/-- Model of `ExcelProcessor._check_special_conditions`: with no configured conditions the
check always passes; for competitor "Энергия" and city "Владивосток" the cell
in column B of the matched row must equal "Авто". -/
def check_special_conditions (sheet : Sheet) (row_idx : Int) (city_name : String)
    (comp : CompetitorConfig) : Bool :=
  if comp.special_conditions.isEmpty then true
  else if comp.name = "Энергия" && city_name = "Владивосток" then
    decide (sheet.cell "B" row_idx = some (.text "Авто"))
  else true

/-- The field map collected for a matched row: the dict
`{convert: …, …, weight_3000: …}` of `_find_city_row_data` (always six keys,
values possibly `None`). -/
structure RowData where
  convert : Option CellValue
  minimum_1 : Option CellValue
  minimum_2 : Option CellValue
  volume : Option CellValue
  weight_100 : Option CellValue
  weight_3000 : Option CellValue
deriving DecidableEq, Repr

/-- Model of `dict.values()` of a collected field map (insertion order of the source). -/
def RowData.values (rd : RowData) : List (Option CellValue) :=
  [rd.convert, rd.minimum_1, rd.minimum_2, rd.volume, rd.weight_100, rd.weight_3000]

/-- Model of `any(v is not None for v in city_data.values())`. -/
def RowData.hasValue (rd : RowData) : Bool :=
  rd.values.any (·.isSome)

/-- Model of `dict.items()` of a collected field map. -/
def RowData.items (rd : RowData) : List (String × Option CellValue) :=
  [("convert", rd.convert), ("minimum_1", rd.minimum_1), ("minimum_2", rd.minimum_2),
   ("volume", rd.volume), ("weight_100", rd.weight_100), ("weight_3000", rd.weight_3000)]

/-- The field-reading block of `_find_city_row_data`: read each field at its
configured source column, at the matched row plus the field's row offset. -/
def readRowData (sheet : Sheet) (comp : CompetitorConfig) (row_idx : Int) : RowData :=
  let o := comp.row_offsets
  let c := comp.source_columns
  { convert := sheet.cell c.convert (row_idx + o.row_2)
    minimum_1 := sheet.cell c.minimum_1 (row_idx + o.row_3)
    minimum_2 := sheet.cell c.minimum_2 (row_idx + o.row_4)
    volume := sheet.cell c.volume (row_idx + o.row_5)
    weight_100 := sheet.cell c.weight_100 (row_idx + o.row_6)
    weight_3000 := sheet.cell c.weight_3000 (row_idx + o.row_7) }

/-- The scanning loop of `_find_city_row_data` over a list of row indices:
skip falsy cells, fuzzy-match the lowered cell text against every search name,
apply the special-condition veto (resuming the scan on veto), and return the
field map of the first accepted row. -/
def scanRows (env : FuzzyEnv) (cfg : AppConfig) (comp : CompetitorConfig)
    (sheet : Sheet) (city_name : String) : List Nat → Option RowData
  | [] => none
  | row_idx :: rest =>
    match sheet.cell comp.source_columns.city (row_idx : Int) with
    | none => scanRows env cfg comp sheet city_name rest
    | some cv =>
      if !cv.truthy then scanRows env cfg comp sheet city_name rest
      else
        let cell_str := env.lowerFn cv.pyStr
        let matched := (cfg.get_city_names city_name).any (fun sn =>
          decide (comp.fuzzy_match_threshold ≤ env.simScore (env.lowerFn sn) cell_str))
        if !matched then scanRows env cfg comp sheet city_name rest
        else if !check_special_conditions sheet (row_idx : Int) city_name comp then
          scanRows env cfg comp sheet city_name rest
        else some (readRowData sheet comp (row_idx : Int))

/-- Model of `ExcelProcessor._find_city_row_data`: scan rows `1 … max_row` in order. -/
def find_city_row_data (env : FuzzyEnv) (cfg : AppConfig) (comp : CompetitorConfig)
    (sheet : Sheet) (city_name : String) : Option RowData :=
  scanRows env cfg comp sheet city_name (List.range' 1 sheet.maxRow)

/-- Specification-side predicate: the row has a truthy city cell and its lowered
text fuzzy-matches some search name at or above the competitor's threshold. -/
def rowQualifies (env : FuzzyEnv) (cfg : AppConfig) (comp : CompetitorConfig)
    (sheet : Sheet) (city_name : String) (row_idx : Nat) : Bool :=
  match sheet.cell comp.source_columns.city (row_idx : Int) with
  | none => false
  | some cv =>
    cv.truthy && (cfg.get_city_names city_name).any (fun sn =>
      decide (comp.fuzzy_match_threshold ≤
        env.simScore (env.lowerFn sn) (env.lowerFn cv.pyStr)))

/-- Model of `ExcelProcessor.collect_competitor_data`: a missing/unreadable file yields
the empty map; otherwise every configured city is looked up in the sheet and
the found field maps are stored keyed by city, in configured city order. -/
def collect_competitor_data (env : FuzzyEnv) (cfg : AppConfig)
    (comp : CompetitorConfig) (file : Option Sheet) : List (String × RowData) :=
  match file with
  | none => []
  | some sheet =>
    cfg.cities.filterMap (fun city =>
      (find_city_row_data env cfg comp sheet city).map (fun rd => (city, rd)))

/-- Step 2 of `process_all`: the presence map `{city: [competitor, …]}` —
a competitor is included for a city iff its collected field map for that city
exists and contains at least one non-`None` value.  (A stored field map always
has its six keys, so the dict-truthiness test `city_data and …` of the source
reduces to existence.) -/
def build_city_competitors (collected : List (String × List (String × RowData)))
    (cfg : AppConfig) : List (String × List CompetitorConfig) :=
  cfg.cities.map (fun city =>
    (city, (enabled_competitors cfg).filter (fun comp =>
      match ((collected.lookup comp.name).getD []).lookup city with
      | some rd => rd.hasValue
      | none => false)))

/-- The content written into an output cell.  Formula strings of the source are
kept structured; `CellContent.render` produces exactly the f-string text that
`output_generator.py` assigns to `cell.value`. -/
inductive CellContent where
  | blank
  | num (v : Int)
  | text (s : String)
  | markupRefFormula (v : Int) (col : String) (mrow : Nat)
  | rowMarkupFormula (col : String) (crow : Nat) (percent : Int)
  | rowRefFormula (col : String) (crow : Nat)
  | averageFormula (col : String) (firstRow lastRow : Nat)
deriving DecidableEq, Repr

/-- The openpyxl `cell.value` produced by each content (`None` for `blank`);
formula cases render to exactly the source's f-strings. -/
def CellContent.render : CellContent → Option CellValue
  | .blank => none
  | .num v => some (.num v)
  | .text s => some (.text s)
  | .markupRefFormula v col mrow =>
      some (.text ("=" ++ toString v ++ "*(1+Наценки!" ++ col ++ toString mrow ++ "/100)"))
  | .rowMarkupFormula col crow percent =>
      some (.text ("=" ++ col ++ toString crow ++ "*(1+" ++ toString percent ++ "/100)"))
  | .rowRefFormula col crow =>
      some (.text ("=" ++ col ++ toString crow))
  | .averageFormula col firstRow lastRow =>
      some (.text ("=AVERAGE(" ++ col ++ toString firstRow ++ ":" ++ col ++ toString lastRow ++ ")"))

/-- Whether a content is a formula referencing the markups sheet («Наценки»). -/
def CellContent.refsMarkups : CellContent → Bool
  | .markupRefFormula _ _ _ => true
  | _ => false

/-- Summary of one emitted row of the "Данные" sheet during layout. -/
inductive RowEntry where
  | titleRow
  | header
  | cityName (city : String)
  | competitorRow (name : String)
  | markupRowEntry (comp : String) (label : String)
  | averageRow (cells : List (String × CellContent))
  | ownRow (name : String)
deriving DecidableEq, Repr

/-- Whether a layout row carries a markups-sheet-referencing formula. -/
def RowEntry.refsMarkups : RowEntry → Bool
  | .averageRow cells => cells.any (fun p => p.2.refsMarkups)
  | _ => false

/-- One observable effect of the generation run, in program order. -/
inductive Event where
  | layoutRow (row : Nat) (entry : RowEntry)
  | assignMarkupRow (comp : String) (row : Nat)
  | markupsCell (row : Nat) (col : String) (content : CellContent)
  | dataCell (row : Nat) (col : String) (content : CellContent)
deriving DecidableEq, Repr

/-- Whether an event writes a markups-sheet-referencing formula. -/
def Event.refsMarkups : Event → Bool
  | .layoutRow _ e => e.refsMarkups
  | .assignMarkupRow _ _ => false
  | .markupsCell _ _ c => c.refsMarkups
  | .dataCell _ _ c => c.refsMarkups

/-- Whether an event is a data-sheet cell write. -/
def Event.isDataCell : Event → Bool
  | .dataCell _ _ _ => true
  | _ => false

/-- Accumulator of `_create_empty_rows`: the row map under construction, the
rows emitted so far, and the running `current_row` counter. -/
structure LayoutAcc where
  row_map : List (String × List (String × Nat))
  rows : List (Nat × RowEntry)
  current_row : Nat
deriving DecidableEq, Repr

/-- The competitors loop of `_create_empty_rows`: for each present competitor
emit its row, record it in the city's row map, then emit its markup rows
(composite key `name|label`), advancing `current_row` by one per row. -/
def competitorRowsLoop (competitors : List CompetitorConfig) (start : Nat) :
    List (String × Nat) × List (Nat × RowEntry) × Nat :=
  competitors.foldl
    (fun acc comp =>
      let m := acc.1 ++ [(comp.name, acc.2.2)]
      let rs := acc.2.1 ++ [(acc.2.2, RowEntry.competitorRow comp.name)]
      let cur := acc.2.2 + 1
      comp.markup_rows.foldl
        (fun acc2 mk =>
          (acc2.1 ++ [(comp.name ++ "|" ++ mk.name, acc2.2.2)],
           acc2.2.1 ++ [(acc2.2.2, RowEntry.markupRowEntry comp.name mk.name)],
           acc2.2.2 + 1))
        (m, rs, cur))
    ([], [], start)

/-- The body of the per-city loop of `_create_empty_rows`: column-header row,
styled city row, competitor (+ markup) rows, then — when averages are enabled —
the average row (with an `AVERAGE` formula over the competitor rows when the
city has present competitors, otherwise no formula) and the own-company row. -/
def layoutCityBlock (cfg : AppConfig) (ccs : List (String × List CompetitorConfig))
    (city : String) (acc : LayoutAcc) : LayoutAcc :=
  let competitors_for_city := (ccs.lookup city).getD []
  let headerRow := acc.current_row
  let cityRow := headerRow + 1
  let first_competitor_row := cityRow + 1
  let compResult := competitorRowsLoop competitors_for_city first_competitor_row
  let afterComps := compResult.2.2
  let last_competitor_row := afterComps - 1
  let tail :=
    if cfg.output_config.include_average then
      let avgCells := (List.range FIELDS.length).map (fun fi =>
        let col := get_column_letter (2 + fi)
        (col, if competitors_for_city.isEmpty then CellContent.blank
              else CellContent.averageFormula col first_competitor_row last_competitor_row))
      let m := [("__average__", afterComps)]
      let rs := [(afterComps, RowEntry.averageRow avgCells)]
      if cfg.own_company.enabled then
        (m ++ [("__own__", afterComps + 1)],
         rs ++ [(afterComps + 1, RowEntry.ownRow cfg.own_company.name)],
         afterComps + 2)
      else (m, rs, afterComps + 1)
    else (([] : List (String × Nat)), ([] : List (Nat × RowEntry)), afterComps)
  { row_map := acc.row_map ++ [(city, compResult.1 ++ tail.1)],
    rows := acc.rows ++ [(headerRow, RowEntry.header), (cityRow, RowEntry.cityName city)]
              ++ compResult.2.1 ++ tail.2.1,
    current_row := tail.2.2 }

/-- The city loop of `_create_empty_rows`: lay out each city block, adding one
blank separator row (a skipped row number) after every city except the last. -/
def layoutLoop (cfg : AppConfig) (ccs : List (String × List CompetitorConfig)) :
    List String → LayoutAcc → LayoutAcc
  | [], acc => acc
  | city :: rest, acc =>
    let acc1 := layoutCityBlock cfg ccs city acc
    let acc2 := if rest.isEmpty then acc1
                else { acc1 with current_row := acc1.current_row + 1 }
    layoutLoop cfg ccs rest acc2

/-- Lexicographic comparison of character lists by Unicode code point — the
comparison Python's `sorted` applies to strings. -/
def charListLe : List Char → List Char → Bool
  | [], _ => true
  | _ :: _, [] => false
  | c1 :: t1, c2 :: t2 =>
    if c1 = c2 then charListLe t1 t2
    else decide (c1 < c2)

/-- Python string comparison `a <= b` (code-point lexicographic). -/
def strLe (a b : String) : Bool := charListLe a.data b.data

instance : DecidableRel (fun a b : String => strLe a b = true) :=
  fun a b => instDecidableEqBool (strLe a b) true

instance strLeIsTrans : IsTrans String (fun a b => strLe a b = true) := by
  have key : ∀ la lb lc : List Char, charListLe la lb = true →
      charListLe lb lc = true → charListLe la lc = true := by
    intro la
    induction la with
    | nil => intro lb lc _ _; rfl
    | cons c1 t1 ih =>
      intro lb lc hab hbc
      cases lb with
      | nil => simp [charListLe] at hab
      | cons c2 t2 =>
        cases lc with
        | nil => simp [charListLe] at hbc
        | cons c3 t3 =>
          rw [charListLe] at hab hbc ⊢
          by_cases h12 : c1 = c2
          · by_cases h23 : c2 = c3
            · rw [if_pos h12] at hab
              rw [if_pos h23] at hbc
              rw [if_pos (h12.trans h23)]
              exact ih t2 t3 hab hbc
            · rw [if_pos h12] at hab
              rw [if_neg h23] at hbc
              rw [if_neg (fun h => h23 (h12.symm.trans h))]
              rw [h12]
              exact hbc
          · by_cases h23 : c2 = c3
            · rw [if_neg h12] at hab
              rw [if_neg (fun h => h12 (h.trans h23.symm))]
              rw [← h23]
              exact hab
            · rw [if_neg h12] at hab
              rw [if_neg h23] at hbc
              have h13 : c1 < c3 :=
                lt_trans (of_decide_eq_true hab) (of_decide_eq_true hbc)
              rw [if_neg (ne_of_lt h13)]
              exact decide_eq_true h13
  exact ⟨fun a b c => key a.data b.data c.data⟩

instance strLeIsTotal : IsTotal String (fun a b => strLe a b = true) := by
  have key : ∀ la lb : List Char,
      charListLe la lb = true ∨ charListLe lb la = true := by
    intro la
    induction la with
    | nil => intro lb; left; rfl
    | cons c1 t1 ih =>
      intro lb
      cases lb with
      | nil => right; rfl
      | cons c2 t2 =>
        by_cases h : c1 = c2
        · subst h
          rcases ih t2 with h | h
          · left; rw [charListLe, if_pos rfl]; exact h
          · right; rw [charListLe, if_pos rfl]; exact h
        · rcases lt_or_gt_of_ne h with hlt | hgt
          · left; rw [charListLe, if_neg h]; exact decide_eq_true hlt
          · right; rw [charListLe, if_neg (Ne.symm h)]; exact decide_eq_true hgt
  exact ⟨fun a b => key a.data b.data⟩

instance strLeIsAntisymm : IsAntisymm String (fun a b => strLe a b = true) := by
  have key : ∀ la lb : List Char,
      charListLe la lb = true → charListLe lb la = true → la = lb := by
    intro la
    induction la with
    | nil =>
      intro lb hab hba
      cases lb with
      | nil => rfl
      | cons c2 t2 => simp [charListLe] at hba
    | cons c1 t1 ih =>
      intro lb hab hba
      cases lb with
      | nil => simp [charListLe] at hab
      | cons c2 t2 =>
        by_cases h : c1 = c2
        · subst h
          rw [charListLe, if_pos rfl] at hab hba
          rw [ih t2 hab hba]
        · rw [charListLe, if_neg h] at hab
          rw [charListLe, if_neg (Ne.symm h)] at hba
          exact absurd (of_decide_eq_true hab) (not_lt_of_gt (of_decide_eq_true hba))
  refine ⟨fun a b hab hba => ?_⟩
  cases a with
  | mk da =>
    cases b with
    | mk db =>
      have hd : da = db := key da db hab hba
      rw [hd]

/-- Model of `sorted(self.config.cities.keys())`: cities in lexicographic order. -/
def sortedCities (cfg : AppConfig) : List String :=
  cfg.cities.insertionSort (fun a b => strLe a b = true)

/-- Model of `OutputFileGenerator._create_empty_rows` preceded by `_create_headers`:
row 1 is the merged title, data rows start at row 2, cities strictly sorted. -/
def create_empty_rows (cfg : AppConfig) (ccs : List (String × List CompetitorConfig)) :
    LayoutAcc :=
  layoutLoop cfg ccs (sortedCities cfg)
    { row_map := [], rows := [(1, RowEntry.titleRow)], current_row := 2 }

/-- Model of `OutputFileGenerator.generate`: build the layout; fails (returns `none`)
when no output path is configured.  (I/O failure of the save is not modelled.) -/
def generate (cfg : AppConfig) (ccs : List (String × List CompetitorConfig)) :
    Option LayoutAcc :=
  if cfg.output_file = "" then none else some (create_empty_rows cfg ccs)

/-- The competitor loop of `add_markups_sheet` (`enumerate(enabled, 4)`): one
row per enabled competitor starting at row 4; the assignment into
`markups_row_map`, the name cell, and the six plain numeric percentage cells. -/
def markupRowsLoop : List CompetitorConfig → Nat → List (String × Nat) × List Event
  | [], _ => ([], [])
  | c :: rest, r =>
    let restResult := markupRowsLoop rest (r + 1)
    ((c.name, r) :: restResult.1,
     (Event.assignMarkupRow c.name r ::
      Event.markupsCell r "A" (.text c.name) ::
      (List.range FIELDS.length).map (fun fi =>
        Event.markupsCell r (get_column_letter (2 + fi))
          (.num (c.markups.get (FIELDS.getD fi ""))))) ++ restResult.2)

/-- Model of `OutputFileGenerator.add_markups_sheet`: when the markups sheet is enabled,
write its title and header cells and populate one row per enabled competitor
(in configured order from row 4), returning the populated `markups_row_map`. -/
def add_markups_sheet_events (cfg : AppConfig) : List (String × Nat) × List Event :=
  if !cfg.output_config.markups_sheet then ([], [])
  else
    let headerEvents :=
      Event.markupsCell 1 "A" (.text "Наценки на цены конкурентов (%)") ::
      Event.markupsCell 3 "A" (.text "Конкурент") ::
      (List.range FIELDS.length).map (fun fi =>
        Event.markupsCell 3 (get_column_letter (2 + fi))
          (.text (FIELD_NAMES (FIELDS.getD fi ""))))
    let loopResult := markupRowsLoop (enabled_competitors cfg) 4
    (loopResult.1, headerEvents ++ loopResult.2)

/-- The mutable state of `OutputFileGenerator` during cell writing: workbook
presence, the two row maps, the trace of writes, and the in-memory data cache. -/
structure GenState where
  wbExists : Bool
  row_map : List (String × List (String × Nat))
  markups_row_map : List (String × Nat)
  events : List Event
  data : List (String × List (String × List (String × Option CellValue)))
deriving Repr

/-- Update (or insert) a key of an association list, Python-dict style. -/
def setAssoc {α : Type} (l : List (String × α)) (k : String) (v : α) :
    List (String × α) :=
  match l with
  | [] => [(k, v)]
  | (k', v') :: rest => if k' = k then (k, v) :: rest else (k', v') :: setAssoc rest k v

/-- The cache update of `write_competitor_data`
(`self.data[city][competitor.name][field] = value`); a missing city key would
raise in Python and is unreachable behind the row-map guard. -/
def updateData (data : List (String × List (String × List (String × Option CellValue))))
    (city comp field : String) (value : Option CellValue) :
    List (String × List (String × List (String × Option CellValue))) :=
  match data.lookup city with
  | none => data
  | some cityData =>
    let compData := (cityData.lookup comp).getD []
    setAssoc data city (setAssoc cityData comp (setAssoc compData field value))

/-- The markup-row writes at the end of `write_competitor_data`
(`for mk_row in competitor.markup_rows`): for every configured markup row that
has an assigned output row in this city, a formula referencing the competitor's
own row in the same column. -/
def markupRowEvents (comp : CompetitorConfig) (cityMap : List (String × Nat))
    (col : String) (row : Nat) : List MarkupRow → List Event
  | [] => []
  | mk :: rest =>
    (match cityMap.lookup (comp.name ++ "|" ++ mk.name) with
     | none => []
     | some mkRowNum =>
       [Event.dataCell mkRowNum col
         (if mk.percent != 0 then CellContent.rowMarkupFormula col row mk.percent
          else CellContent.rowRefFormula col row)]) ++
    markupRowEvents comp cityMap col row rest

/-- Model of `OutputFileGenerator.write_competitor_data`: guarded by (in order) the city
having a row map entry, the workbook existing, the competitor having a row for
that city, and the field belonging to the fixed six-field set; then write the
value cell (a markups-sheet-referencing formula for a numeric value with a
non-zero markup and an assigned markups row, otherwise the literal value), the
markup-row cells, and update the in-memory cache. -/
def write_competitor_data (comp : CompetitorConfig) (city field : String)
    (value : Option CellValue) (st : GenState) : GenState :=
  match st.row_map.lookup city with
  | none => st
  | some cityMap =>
    if !st.wbExists then st
    else match cityMap.lookup comp.name with
    | none => st
    | some row =>
      if !(FIELDS.contains field) then st
      else
        let col_letter := get_column_letter (2 + FIELDS.indexOf field)
        let content : CellContent :=
          match value with
          | some (.num v) =>
            let markup_percent := comp.markups.get field
            if markup_percent != 0 && (st.markups_row_map.lookup comp.name).isSome then
              CellContent.markupRefFormula v col_letter
                ((st.markups_row_map.lookup comp.name).getD 0)
            else CellContent.num v
          | some (.text s) => CellContent.text s
          | none => CellContent.blank
        { st with
          events := st.events ++ Event.dataCell row col_letter content ::
                      markupRowEvents comp cityMap col_letter row comp.markup_rows,
          data := updateData st.data city comp.name field value }

/-- One entry of the result list of `process_all` (step 4 result dicts). -/
structure CompResult where
  success : Bool
  competitor : String
  processed_cities : Nat
  errors : List String
deriving DecidableEq, Repr

/-- The observable outcome of a full `process_all` run. -/
structure RunResult where
  collected : List (String × List (String × RowData))
  city_competitors : List (String × List CompetitorConfig)
  generated : Bool
  finalState : GenState
  results : List CompResult

/-- The generator state before any failed run: no workbook, nothing written. -/
def emptyGenState : GenState :=
  { wbExists := false, row_map := [], markups_row_map := [], events := [], data := [] }

/-- The body of the step-4 loop of `process_all` for one competitor: write all
its collected field values, skipping the cities where the competitor is not in
the presence list. -/
def writeCollected (collected : List (String × List (String × RowData)))
    (ccs : List (String × List CompetitorConfig)) (comp : CompetitorConfig)
    (st : GenState) : GenState :=
  ((collected.lookup comp.name).getD []).foldl
    (fun st cityFields =>
      if comp ∈ (ccs.lookup cityFields.1).getD [] then
        cityFields.2.items.foldl
          (fun st fv => write_competitor_data comp cityFields.1 fv.1 fv.2 st) st
      else st) st

/-- Model of `ExcelProcessor.process_all` (pure core).  `files` maps a competitor name
to its source sheet (`none` = missing/unreadable file).  Step 1 collects every
enabled competitor's data; step 2 builds the presence map; step 3 generates the
layout (aborting with empty results on failure) and the markups sheet; step 4
writes every collected value of every present (competitor, city) pair.  The
result records of the source's step-4 loop do not read the generator state, so
they are built by a separate map over the same competitor list. -/
def process_all (env : FuzzyEnv) (cfg : AppConfig) (files : String → Option Sheet) :
    RunResult :=
  let enabled := enabled_competitors cfg
  let collected := enabled.map (fun c => (c.name, collect_competitor_data env cfg c (files c.name)))
  let ccs := build_city_competitors collected cfg
  match generate cfg ccs with
  | none =>
    { collected := collected, city_competitors := ccs, generated := false,
      finalState := emptyGenState, results := [] }
  | some lay =>
    let markupsResult := add_markups_sheet_events cfg
    let st0 : GenState :=
      { wbExists := true, row_map := lay.row_map, markups_row_map := markupsResult.1,
        events := lay.rows.map (fun p => Event.layoutRow p.1 p.2) ++ markupsResult.2,
        data := cfg.cities.map (fun c => (c, [])) }
    let finalState := enabled.foldl
      (fun st comp => writeCollected collected ccs comp st) st0
    let results := enabled.map (fun comp =>
      { success := true, competitor := comp.name,
        processed_cities := ((collected.lookup comp.name).getD []).length,
        errors := ([] : List String) })
    { collected := collected, city_competitors := ccs, generated := true,
      finalState := finalState, results := results }

/-- A row is accepted when it fuzzy-qualifies and survives the special-condition
check. -/
def rowAccepted (env : FuzzyEnv) (cfg : AppConfig) (comp : CompetitorConfig)
    (sheet : Sheet) (city_name : String) (row_idx : Nat) : Bool :=
  rowQualifies env cfg comp sheet city_name row_idx &&
    check_special_conditions sheet (row_idx : Int) city_name comp

/-- The fuzzy environment used by all concrete witnesses: exact string equality
scores 100, anything else 0, and lowering is the identity. -/
def exactEnv : FuzzyEnv :=
  { simScore := fun a b => if a == b then 100 else 0, lowerFn := fun s => s }

def c2comp : CompetitorConfig := { name := "TK1", fuzzy_match_threshold := 90 }

def c2cfg : AppConfig :=
  { output_file := "out.xlsx", competitors := [c2comp], cities := ["Moscow"],
    city_aliases := [("Moscow", ["Moskva"])] }

def c2sheet : Sheet :=
  { cell := fun col row =>
      if col == "A" && row == 3 then some (.text "Moskva")
      else if col == "A" && row == 4 then some (.text "Moskva")
      else if col == "D" && row == 3 then some (.num 42)
      else if col == "D" && row == 4 then some (.num 99)
      else none,
    maxRow := 4 }

def c3comp : CompetitorConfig :=
  { name := "Энергия", fuzzy_match_threshold := 95,
    special_conditions := ["vladivostok_auto"] }

def c3cfg : AppConfig :=
  { output_file := "out.xlsx", competitors := [c3comp], cities := ["Владивосток"] }

def c3sheet : Sheet :=
  { cell := fun col row =>
      if col == "A" && row == 2 then some (.text "Владивосток")
      else if col == "B" && row == 2 then some (.text "Ручной")
      else if col == "A" && row == 4 then some (.text "Владивосток")
      else if col == "B" && row == 4 then some (.text "Авто")
      else if col == "D" && row == 4 then some (.num 777)
      else none,
    maxRow := 4 }

/-- The claim-C5 contract of one `write_competitor_data` call that passed all
guards: the value cell written at the competitor's row, in the field's column,
is a markups-sheet-referencing formula exactly when the value is numeric, the
competitor's markup for the field is non-zero and a markups row is assigned
(with the exact source formula text); a numeric value with zero markup or no
markups row is written as the literal number; a text value and an absent value
are written verbatim. -/
def colOf (field : String) : String := get_column_letter (2 + FIELDS.indexOf field)

def WriteValueCellSpec (comp : CompetitorConfig) (city field : String)
    (value : Option CellValue) (st : GenState) (cityMap : List (String × Nat))
    (row : Nat) : Prop :=
  (∀ v mrow, value = some (.num v) → comp.markups.get field ≠ 0 →
      st.markups_row_map.lookup comp.name = some mrow →
      (write_competitor_data comp city field value st).events
        = st.events ++ Event.dataCell row (colOf field)
            (.markupRefFormula v (colOf field) mrow)
          :: markupRowEvents comp cityMap (colOf field) row comp.markup_rows
      ∧ (CellContent.markupRefFormula v (colOf field) mrow).render
          = some (.text ("=" ++ toString v ++ "*(1+Наценки!" ++ colOf field
              ++ toString mrow ++ "/100)")))
  ∧ (∀ v, value = some (.num v) →
      (comp.markups.get field = 0 ∨ st.markups_row_map.lookup comp.name = none) →
      (write_competitor_data comp city field value st).events
        = st.events ++ Event.dataCell row (colOf field) (.num v)
          :: markupRowEvents comp cityMap (colOf field) row comp.markup_rows)
  ∧ (∀ s, value = some (.text s) →
      (write_competitor_data comp city field value st).events
        = st.events ++ Event.dataCell row (colOf field) (.text s)
          :: markupRowEvents comp cityMap (colOf field) row comp.markup_rows)
  ∧ (value = none →
      (write_competitor_data comp city field value st).events
        = st.events ++ Event.dataCell row (colOf field) .blank
          :: markupRowEvents comp cityMap (colOf field) row comp.markup_rows)

def c5comp : CompetitorConfig := { name := "X", markups := { convert := 10 } }

def c5st : GenState :=
  { wbExists := true, row_map := [("Город", [("X", 7)])],
    markups_row_map := [("X", 4)], events := [], data := [("Город", [])] }

/-- The value-cell content chosen by `write_competitor_data` (the `match` on the
value in the source), as an explicit function of the markups-row lookup. -/
def writtenContent (comp : CompetitorConfig) (field : String) (mrmRow : Option Nat) :
    Option CellValue → CellContent
  | some (.num v) =>
    if comp.markups.get field != 0 && mrmRow.isSome then
      CellContent.markupRefFormula v (colOf field) (mrmRow.getD 0)
    else CellContent.num v
  | some (.text s) => CellContent.text s
  | none => CellContent.blank

/-- The claim-C6 contract of one guarded `write_competitor_data` call: every
configured markup row with an assigned output row in this city receives the
formula `=<col><competitorRow>*(1+<percent>/100)` when its percent is non-zero
and the pure reference `=<col><competitorRow>` when it is zero — both reference
the competitor's own row in the same column and never the markups sheet. -/
def MarkupRowsWriteSpec (comp : CompetitorConfig) (city field : String)
    (value : Option CellValue) (st : GenState) (cityMap : List (String × Nat))
    (row : Nat) : Prop :=
  ∀ mk ∈ comp.markup_rows, ∀ mkRowNum,
    cityMap.lookup (comp.name ++ "|" ++ mk.name) = some mkRowNum →
    (mk.percent ≠ 0 →
        Event.dataCell mkRowNum (colOf field)
            (.rowMarkupFormula (colOf field) row mk.percent)
          ∈ (write_competitor_data comp city field value st).events
        ∧ (CellContent.rowMarkupFormula (colOf field) row mk.percent).render
            = some (.text ("=" ++ colOf field ++ toString row ++ "*(1+"
                ++ toString mk.percent ++ "/100)"))
        ∧ (CellContent.rowMarkupFormula (colOf field) row mk.percent).refsMarkups = false)
    ∧ (mk.percent = 0 →
        Event.dataCell mkRowNum (colOf field) (.rowRefFormula (colOf field) row)
          ∈ (write_competitor_data comp city field value st).events
        ∧ (CellContent.rowRefFormula (colOf field) row).render
            = some (.text ("=" ++ colOf field ++ toString row))
        ∧ (CellContent.rowRefFormula (colOf field) row).refsMarkups = false)

def c6comp : CompetitorConfig :=
  { name := "Y",
    markup_rows := [({ name := "+10%", percent := 10 } : MarkupRow),
                    ({ name := "zero", percent := 0 } : MarkupRow)] }

def c6st : GenState :=
  { wbExists := true,
    row_map := [("Город", [("Y", 7), ("Y|+10%", 8), ("Y|zero", 9)])],
    markups_row_map := [], events := [], data := [("Город", [])] }

def c1compA : CompetitorConfig := { name := "A" }

def c1compB : CompetitorConfig := { name := "B" }

def c1sheetB : Sheet :=
  { cell := fun col row =>
      if col == "A" && row == 2 then some (.text "M")
      else if col == "D" && row == 2 then some (.num 500)
      else none,
    maxRow := 2 }

def c1cfg : AppConfig :=
  { output_file := "out.xlsx", competitors := [c1compA, c1compB], cities := ["M"] }

def c1files : String → Option Sheet := fun n => if n == "B" then some c1sheetB else none

def c4compA : CompetitorConfig := { name := "A" }

def c4compB : CompetitorConfig := { name := "B" }

def c4cfg : AppConfig :=
  { output_file := "out.xlsx", competitors := [c4compA, c4compB], cities := ["M"] }

def c4sheetA : Sheet :=
  { cell := fun col row =>
      if col == "A" && row == 2 then some (.text "M")
      else if col == "E" && row == 2 then some (.num 7)
      else none,
    maxRow := 2 }

def c4files : String → Option Sheet := fun n => if n == "A" then some c4sheetA else none

/-- Rows occupied by one present competitor: its own row plus its markup rows. -/
def competitorSpan (comp : CompetitorConfig) : Nat := 1 + comp.markup_rows.length

/-- Rows occupied by all present competitors of a city. -/
def presenceSpan (l : List CompetitorConfig) : Nat := (l.map competitorSpan).sum

/-- The markup rows of one competitor, at consecutive row numbers from `r`. -/
def specMkRows (cname : String) : List MarkupRow → Nat → List (Nat × RowEntry)
  | [], _ => []
  | mk :: rest, r => (r, RowEntry.markupRowEntry cname mk.name) :: specMkRows cname rest (r + 1)

/-- The row-map entries of one competitor's markup rows. -/
def specMkMap (cname : String) : List MarkupRow → Nat → List (String × Nat)
  | [], _ => []
  | mk :: rest, r => (cname ++ "|" ++ mk.name, r) :: specMkMap cname rest (r + 1)

/-- One row per present competitor, in presence-list order, each competitor row
immediately followed by its configured markup rows in configured order. -/
def specCompRows : List CompetitorConfig → Nat → List (Nat × RowEntry)
  | [], _ => []
  | c :: rest, r =>
    (r, RowEntry.competitorRow c.name) :: specMkRows c.name c.markup_rows (r + 1)
      ++ specCompRows rest (r + competitorSpan c)

/-- The corresponding row-map entries. -/
def specCompMap : List CompetitorConfig → Nat → List (String × Nat)
  | [], _ => []
  | c :: rest, r =>
    (c.name, r) :: specMkMap c.name c.markup_rows (r + 1)
      ++ specCompMap rest (r + competitorSpan c)

/-- The average-row cells: one cell per field column, holding an `AVERAGE`
formula over `firstRow … lastRow` when the city has present competitors, and
no formula otherwise. -/
def avgCellsSpec (l : List CompetitorConfig) (firstRow lastRow : Nat) :
    List (String × CellContent) :=
  (List.range FIELDS.length).map (fun fi =>
    (get_column_letter (2 + fi),
     if l.isEmpty then CellContent.blank
     else CellContent.averageFormula (get_column_letter (2 + fi)) firstRow lastRow))

/-- The full block of rows emitted for one city starting at `start`: header row,
city row, competitor (+ markup) rows, then — when averages are enabled — the
average row and, when the own company is enabled, the own-company row. -/
def specCityBlockRows (cfg : AppConfig) (l : List CompetitorConfig) (city : String)
    (start : Nat) : List (Nat × RowEntry) :=
  [(start, RowEntry.header), (start + 1, RowEntry.cityName city)]
  ++ specCompRows l (start + 2)
  ++ (if cfg.output_config.include_average then
        (start + 2 + presenceSpan l,
         RowEntry.averageRow (avgCellsSpec l (start + 2) (start + 1 + presenceSpan l)))
        :: (if cfg.own_company.enabled then
              [(start + 3 + presenceSpan l, RowEntry.ownRow cfg.own_company.name)]
            else [])
      else [])

/-- The row-map entry produced for one city starting at `start`. -/
def specCityMap (cfg : AppConfig) (l : List CompetitorConfig) (start : Nat) :
    List (String × Nat) :=
  specCompMap l (start + 2)
  ++ (if cfg.output_config.include_average then
        ("__average__", start + 2 + presenceSpan l)
        :: (if cfg.own_company.enabled then
              [("__own__", start + 3 + presenceSpan l)]
            else [])
      else [])

/-- Number of rows of one city block. -/
def blockLen (cfg : AppConfig) (l : List CompetitorConfig) : Nat :=
  2 + presenceSpan l
    + (if cfg.output_config.include_average then
         (if cfg.own_company.enabled then 2 else 1)
       else 0)

/-- City blocks laid out over the (sorted) city list: each next block starts
`blockLen + 1` rows after the previous one — exactly one skipped (blank)
separator row number between consecutive cities, and none is observable after
the last city (nothing follows it). -/
def specLayoutRows (cfg : AppConfig) (ccs : List (String × List CompetitorConfig)) :
    List String → Nat → List (Nat × RowEntry)
  | [], _ => []
  | city :: rest, start =>
    specCityBlockRows cfg ((ccs.lookup city).getD []) city start
      ++ specLayoutRows cfg ccs rest
          (start + blockLen cfg ((ccs.lookup city).getD []) + 1)

def c7cfg : AppConfig :=
  { output_file := "o.xlsx", competitors := [], cities := ["B", "A"] }

def c7ccs : List (String × List CompetitorConfig) := [("A", []), ("B", [])]

def c8cfg : AppConfig :=
  { output_file := "o.xlsx", competitors := [c6comp], cities := ["X", "Z"] }

def c8acc : LayoutAcc := { row_map := [], rows := [], current_row := 2 }

/-- Spec-side description of the markups row map: one row per competitor, in
list order, at consecutive rows from the starting offset. -/
def markupAssignRows : List CompetitorConfig → Nat → List (String × Nat)
  | [], _ => []
  | c :: rest, r => (c.name, r) :: markupAssignRows rest (r + 1)

/-- The two-pass protocol of claim C9: the event trace of a full run splits
into a prefix (layout + markups sheet) containing no markups-sheet-referencing
formula, followed by data-cell writes only; the `assignMarkupRow` events of the
prefix are exactly the entries of the final markups row map, which maps each
enabled competitor, in configured order, to consecutive rows from offset 4. -/
def MarkupsProtocol (env : FuzzyEnv) (cfg : AppConfig)
    (files : String → Option Sheet) : Prop :=
  ∃ pre ds,
    (process_all env cfg files).finalState.events = pre ++ ds
    ∧ (∀ e ∈ pre, e.refsMarkups = false)
    ∧ (∀ e ∈ ds, e.isDataCell = true)
    ∧ (∀ name r, Event.assignMarkupRow name r ∈ pre ↔
        (name, r) ∈ (process_all env cfg files).finalState.markups_row_map)
    ∧ (process_all env cfg files).finalState.markups_row_map
        = markupAssignRows (enabled_competitors cfg) 4

/-! ## Theorems -/

theorem scan_cons_of_not_qualifies (env : FuzzyEnv) (cfg : AppConfig)
    (comp : CompetitorConfig) (sheet : Sheet) (city : String) (r : Nat)
    (rest : List Nat) (h : rowQualifies env cfg comp sheet city r = false) :
    scanRows env cfg comp sheet city (r :: rest) = scanRows env cfg comp sheet city rest := by
  rw [rowQualifies] at h
  rw [scanRows]
  cases hc : sheet.cell comp.source_columns.city (r : Int) with
  | none => simp
  | some cv =>
    rw [hc] at h
    simp only [Bool.and_eq_false_iff] at h
    rcases h with h | h
    · simp [h]
    · simp only [h]
      cases htr : cv.truthy <;> simp

theorem scan_cons_of_veto (env : FuzzyEnv) (cfg : AppConfig)
    (comp : CompetitorConfig) (sheet : Sheet) (city : String) (r : Nat)
    (rest : List Nat) (hq : rowQualifies env cfg comp sheet city r = true)
    (hv : check_special_conditions sheet (r : Int) city comp = false) :
    scanRows env cfg comp sheet city (r :: rest) = scanRows env cfg comp sheet city rest := by
  rw [rowQualifies] at hq
  rw [scanRows]
  cases hc : sheet.cell comp.source_columns.city (r : Int) with
  | none => simp [hc] at hq
  | some cv =>
    rw [hc] at hq
    simp only [Bool.and_eq_true] at hq
    simp [hq.1, hq.2, hv]

theorem scan_cons_of_accept (env : FuzzyEnv) (cfg : AppConfig)
    (comp : CompetitorConfig) (sheet : Sheet) (city : String) (r : Nat)
    (rest : List Nat) (hq : rowQualifies env cfg comp sheet city r = true)
    (hv : check_special_conditions sheet (r : Int) city comp = true) :
    scanRows env cfg comp sheet city (r :: rest) = some (readRowData sheet comp (r : Int)) := by
  rw [rowQualifies] at hq
  rw [scanRows]
  cases hc : sheet.cell comp.source_columns.city (r : Int) with
  | none => simp [hc] at hq
  | some cv =>
    rw [hc] at hq
    simp only [Bool.and_eq_true] at hq
    simp [hq.1, hq.2, hv]

theorem scan_append_of_not_qualifies (env : FuzzyEnv) (cfg : AppConfig)
    (comp : CompetitorConfig) (sheet : Sheet) (city : String) (l1 l2 : List Nat)
    (h : ∀ x ∈ l1, rowQualifies env cfg comp sheet city x = false) :
    scanRows env cfg comp sheet city (l1 ++ l2) = scanRows env cfg comp sheet city l2 := by
  induction l1 with
  | nil => rfl
  | cons r rest ih =>
    rw [List.cons_append,
      scan_cons_of_not_qualifies env cfg comp sheet city r _ (h r (by simp))]
    exact ih (fun x hx => h x (by simp [hx]))

theorem scan_none_of_not_accepted (env : FuzzyEnv) (cfg : AppConfig)
    (comp : CompetitorConfig) (sheet : Sheet) (city : String) (l : List Nat)
    (h : ∀ x ∈ l, rowAccepted env cfg comp sheet city x = false) :
    scanRows env cfg comp sheet city l = none := by
  induction l with
  | nil => rfl
  | cons r rest ih =>
    have hr := h r (by simp)
    rw [rowAccepted, Bool.and_eq_false_iff] at hr
    have htail : scanRows env cfg comp sheet city rest = none :=
      ih (fun x hx => h x (by simp [hx]))
    rcases hr with hr | hr
    · rw [scan_cons_of_not_qualifies env cfg comp sheet city r rest hr]; exact htail
    · by_cases hq : rowQualifies env cfg comp sheet city r = true
      · rw [scan_cons_of_veto env cfg comp sheet city r rest hq hr]; exact htail
      · rw [scan_cons_of_not_qualifies env cfg comp sheet city r rest
          (Bool.eq_false_iff.mpr hq)]
        exact htail

theorem scan_eq_find_of_no_veto (env : FuzzyEnv) (cfg : AppConfig)
    (comp : CompetitorConfig) (sheet : Sheet) (city : String) (l : List Nat)
    (h : ∀ x ∈ l, check_special_conditions sheet (x : Int) city comp = true) :
    scanRows env cfg comp sheet city l
      = (l.find? (rowQualifies env cfg comp sheet city)).map
          (fun r => readRowData sheet comp (r : Int)) := by
  induction l with
  | nil => rfl
  | cons r rest ih =>
    by_cases hq : rowQualifies env cfg comp sheet city r = true
    · rw [scan_cons_of_accept env cfg comp sheet city r rest hq (h r (by simp)),
        List.find?_cons_of_pos _ hq]
      rfl
    · have hq' : rowQualifies env cfg comp sheet city r = false := Bool.eq_false_iff.mpr hq
      rw [scan_cons_of_not_qualifies env cfg comp sheet city r rest hq',
        List.find?_cons_of_neg _ (by simp [hq']),
        ih (fun x hx => h x (by simp [hx]))]

/-- C2: for every source sheet, city and threshold, with no special-condition
veto in play, city matching scans rows in sheet order starting at row 1, skips
rows with empty (falsy) cells, and returns the field map of the **first** row
whose case-insensitive weighted-token-set similarity against any search name
(canonical name first, then aliases in configured order) reaches the threshold;
later rows are never considered, and `none` is returned if no row qualifies. -/
theorem claim_C2_first_match_wins (env : FuzzyEnv) (cfg : AppConfig)
    (comp : CompetitorConfig) (sheet : Sheet) (city : String)
    (h : ∀ x ∈ List.range' 1 sheet.maxRow,
      check_special_conditions sheet (x : Int) city comp = true) :
    find_city_row_data env cfg comp sheet city
      = ((List.range' 1 sheet.maxRow).find? (rowQualifies env cfg comp sheet city)).map
          (fun r => readRowData sheet comp (r : Int)) :=
  scan_eq_find_of_no_veto env cfg comp sheet city _ h

theorem claim_C2_witness :
    (∀ x ∈ List.range' 1 c2sheet.maxRow,
      check_special_conditions c2sheet (x : Int) "Moscow" c2comp = true)
    ∧ find_city_row_data exactEnv c2cfg c2comp c2sheet "Moscow"
        = some { convert := some (.num 42), minimum_1 := none, minimum_2 := none,
                 volume := none, weight_100 := none, weight_3000 := none } :=
  ⟨by decide, by
    rw [claim_C2_first_match_wins exactEnv c2cfg c2comp c2sheet "Moscow" (by decide)]
    decide⟩

/-- C3: when a row that crosses the fuzzy threshold is vetoed by the special
condition (competitor "Энергия", city "Владивосток", column-B cell of the
matched row not equal to "Авто"), scanning resumes at the later rows of the
same sheet instead of terminating; if no later row is accepted either, the
result is `none`, exactly as if the city had never been found (the `Option`
result carries no error). -/
theorem claim_C3_veto_resumes_scanning (env : FuzzyEnv) (cfg : AppConfig)
    (comp : CompetitorConfig) (sheet : Sheet) (city : String) (r : Nat)
    (hr1 : 1 ≤ r) (hr2 : r ≤ sheet.maxRow)
    (hbefore : ∀ x ∈ List.range' 1 (r - 1), rowQualifies env cfg comp sheet city x = false)
    (hq : rowQualifies env cfg comp sheet city r = true)
    (hname : comp.name = "Энергия") (hcity : city = "Владивосток")
    (hcond : comp.special_conditions.isEmpty = false)
    (hB : sheet.cell "B" (r : Int) ≠ some (CellValue.text "Авто")) :
    find_city_row_data env cfg comp sheet city
        = scanRows env cfg comp sheet city (List.range' (r + 1) (sheet.maxRow - r))
    ∧ ((∀ x ∈ List.range' (r + 1) (sheet.maxRow - r),
          rowAccepted env cfg comp sheet city x = false) →
        find_city_row_data env cfg comp sheet city = none) := by
  have hveto : check_special_conditions sheet (r : Int) city comp = false := by
    rw [check_special_conditions, hcond, hname, hcity]
    simp [hB]
  have hsplit : List.range' 1 (r - 1) ++ r :: List.range' (r + 1) (sheet.maxRow - r)
      = List.range' 1 sheet.maxRow := by
    have h1 : r :: List.range' (r + 1) (sheet.maxRow - r)
        = List.range' r (sheet.maxRow - r + 1) := by
      rw [List.range'_succ]
    rw [h1]
    have h2 : (1 : Nat) + 1 * (r - 1) = r := by omega
    have h3 := List.range'_append 1 (r - 1) (sheet.maxRow - r + 1) 1
    rw [h2] at h3
    rw [h3]
    congr 1
    omega
  have hmain : find_city_row_data env cfg comp sheet city
      = scanRows env cfg comp sheet city (List.range' (r + 1) (sheet.maxRow - r)) := by
    rw [find_city_row_data, ← hsplit,
      scan_append_of_not_qualifies env cfg comp sheet city _ _ hbefore,
      scan_cons_of_veto env cfg comp sheet city r _ hq hveto]
  refine ⟨hmain, fun hafter => ?_⟩
  rw [hmain]
  exact scan_none_of_not_accepted env cfg comp sheet city _ hafter

theorem claim_C3_witness :
    find_city_row_data exactEnv c3cfg c3comp c3sheet "Владивосток"
        = scanRows exactEnv c3cfg c3comp c3sheet "Владивосток" (List.range' 3 2)
    ∧ find_city_row_data exactEnv c3cfg c3comp c3sheet "Владивосток"
        = some { convert := some (.num 777), minimum_1 := none, minimum_2 := none,
                 volume := none, weight_100 := none, weight_3000 := none } :=
  ⟨(claim_C3_veto_resumes_scanning exactEnv c3cfg c3comp c3sheet "Владивосток" 2
      (by decide) (by decide) (by decide) (by decide) rfl rfl (by decide) (by decide)).1,
   by decide⟩

/-- C10: when the city has no row-map entry, or no workbook exists, or the
competitor has no assigned row for that city, or the field is outside the fixed
six-field set, `write_competitor_data` returns without writing: the state
(trace of written cells and in-memory cache included) is unchanged. -/
theorem claim_C10_write_guards (comp : CompetitorConfig) (city field : String)
    (value : Option CellValue) (st : GenState)
    (h : st.row_map.lookup city = none ∨ st.wbExists = false
      ∨ (∃ m, st.row_map.lookup city = some m ∧ m.lookup comp.name = none)
      ∨ FIELDS.contains field = false) :
    write_competitor_data comp city field value st = st := by
  rw [write_competitor_data]
  rcases h with h | h | ⟨m, hm, hname⟩ | h
  · simp [h]
  · cases hc : st.row_map.lookup city with
    | none => rfl
    | some m => simp [h]
  · rw [hm]
    by_cases hwb : st.wbExists <;> simp [hwb, hname]
  · have h' : ¬ field ∈ FIELDS := by simpa using h
    cases hc : st.row_map.lookup city with
    | none => rfl
    | some m =>
      by_cases hwb : st.wbExists
      · cases hn : m.lookup comp.name <;> simp [hwb, hn, h']
      · simp [Bool.eq_false_iff.mpr hwb]

theorem claim_C10_witness :
    write_competitor_data c2comp "Moscow" "convert" none emptyGenState = emptyGenState :=
  claim_C10_write_guards c2comp "Moscow" "convert" none emptyGenState (Or.inl rfl)

/-- C5: the value cell written by `write_competitor_data` is the formula
`=<value>*(1+Наценки!<col><markupsRow>/100)` for a numeric value with non-zero
field markup and an assigned markups-sheet row, the literal number when the
markup is zero or no markups row is assigned (markups disabled), and the
verbatim value when it is text or absent. -/
theorem claim_C5_markup_formula (comp : CompetitorConfig) (city field : String)
    (value : Option CellValue) (st : GenState) (cityMap : List (String × Nat))
    (row : Nat)
    (hcity : st.row_map.lookup city = some cityMap) (hwb : st.wbExists = true)
    (hrow : cityMap.lookup comp.name = some row)
    (hfield : FIELDS.contains field = true) :
    WriteValueCellSpec comp city field value st cityMap row := by
  have hmemf : field ∈ FIELDS := by simpa using hfield
  refine ⟨?_, ?_, ?_, ?_⟩
  · intro v mrow hv hmk hlk
    subst hv
    have hne : (comp.markups.get field != 0) = true := by simpa using hmk
    refine ⟨?_, rfl⟩
    simp [write_competitor_data, hcity, hwb, hrow, hfield, hmemf, hlk, hne, colOf]
  · intro v hv hz
    subst hv
    rcases hz with hz | hz
    · simp [write_competitor_data, hcity, hwb, hrow, hfield, hmemf, hz, colOf]
    · simp [write_competitor_data, hcity, hwb, hrow, hfield, hmemf, hz, colOf]
  · intro s hv
    subst hv
    simp [write_competitor_data, hcity, hwb, hrow, hfield, hmemf, colOf]
  · intro hv
    subst hv
    simp [write_competitor_data, hcity, hwb, hrow, hfield, hmemf, colOf]

theorem claim_C5_witness :
    WriteValueCellSpec c5comp "Город" "convert" (some (.num 500)) c5st [("X", 7)] 7
    ∧ (write_competitor_data c5comp "Город" "convert" (some (.num 500)) c5st).events
        = [Event.dataCell 7 "B" (.markupRefFormula 500 "B" 4)]
    ∧ (CellContent.markupRefFormula 500 "B" 4).render
        = some (.text "=500*(1+Наценки!B4/100)") :=
  ⟨claim_C5_markup_formula c5comp "Город" "convert" (some (.num 500)) c5st [("X", 7)] 7
      (by decide) rfl (by decide) (by decide),
   by decide, by decide⟩

theorem write_events_eq (comp : CompetitorConfig) (city field : String)
    (value : Option CellValue) (st : GenState) (cityMap : List (String × Nat))
    (row : Nat)
    (hcity : st.row_map.lookup city = some cityMap) (hwb : st.wbExists = true)
    (hrow : cityMap.lookup comp.name = some row)
    (hfield : FIELDS.contains field = true) :
    (write_competitor_data comp city field value st).events
      = st.events ++ Event.dataCell row (colOf field)
          (writtenContent comp field (st.markups_row_map.lookup comp.name) value)
        :: markupRowEvents comp cityMap (colOf field) row comp.markup_rows := by
  have hmemf : field ∈ FIELDS := by simpa using hfield
  cases value with
  | none => simp [write_competitor_data, writtenContent, hcity, hwb, hrow, hmemf, colOf]
  | some cv =>
    cases cv <;>
      simp [write_competitor_data, writtenContent, hcity, hwb, hrow, hmemf, colOf]

theorem markupRowEvents_mem (comp : CompetitorConfig) (cityMap : List (String × Nat))
    (col : String) (row : Nat) (l : List MarkupRow) (mk : MarkupRow) (mkRowNum : Nat)
    (hmem : mk ∈ l)
    (hlk : cityMap.lookup (comp.name ++ "|" ++ mk.name) = some mkRowNum) :
    Event.dataCell mkRowNum col
        (if mk.percent != 0 then CellContent.rowMarkupFormula col row mk.percent
         else CellContent.rowRefFormula col row)
      ∈ markupRowEvents comp cityMap col row l := by
  induction l with
  | nil => cases hmem
  | cons hd tl ih =>
    rw [markupRowEvents]
    rcases List.mem_cons.mp hmem with hmem | hmem
    · subst hmem
      rw [hlk]
      exact List.mem_append_left _ (by simp)
    · exact List.mem_append_right _ (ih hmem)

/-- C6: every configured markup-row cell written by `write_competitor_data` is
`=<col><competitorRow>*(1+<percent>/100)` for a non-zero percent and
`=<col><competitorRow>` for a zero percent, always referencing the competitor's
own row in the same column and never the markups sheet. -/
theorem claim_C6_markup_rows (comp : CompetitorConfig) (city field : String)
    (value : Option CellValue) (st : GenState) (cityMap : List (String × Nat))
    (row : Nat)
    (hcity : st.row_map.lookup city = some cityMap) (hwb : st.wbExists = true)
    (hrow : cityMap.lookup comp.name = some row)
    (hfield : FIELDS.contains field = true) :
    MarkupRowsWriteSpec comp city field value st cityMap row := by
  intro mk hmem mkRowNum hlk
  have hevts := write_events_eq comp city field value st cityMap row hcity hwb hrow hfield
  constructor
  · intro hp
    refine ⟨?_, rfl, rfl⟩
    rw [hevts]
    have hm := markupRowEvents_mem comp cityMap (colOf field) row comp.markup_rows
      mk mkRowNum hmem hlk
    rw [if_pos (by simpa using hp)] at hm
    exact List.mem_append_right _ (List.mem_cons_of_mem _ hm)
  · intro hp
    refine ⟨?_, rfl, rfl⟩
    rw [hevts]
    have hm := markupRowEvents_mem comp cityMap (colOf field) row comp.markup_rows
      mk mkRowNum hmem hlk
    rw [if_neg (by simp [hp])] at hm
    exact List.mem_append_right _ (List.mem_cons_of_mem _ hm)

theorem claim_C6_witness :
    MarkupRowsWriteSpec c6comp "Город" "minimum_1" (some (.num 100)) c6st
        [("Y", 7), ("Y|+10%", 8), ("Y|zero", 9)] 7
    ∧ (write_competitor_data c6comp "Город" "minimum_1" (some (.num 100)) c6st).events
        = [Event.dataCell 7 "C" (.num 100),
           Event.dataCell 8 "C" (.rowMarkupFormula "C" 7 10),
           Event.dataCell 9 "C" (.rowRefFormula "C" 7)]
    ∧ (CellContent.rowMarkupFormula "C" 7 10).render = some (.text "=C7*(1+10/100)")
    ∧ (CellContent.rowRefFormula "C" 7).render = some (.text "=C7") :=
  ⟨claim_C6_markup_rows c6comp "Город" "minimum_1" (some (.num 100)) c6st
      [("Y", 7), ("Y|+10%", 8), ("Y|zero", 9)] 7 (by decide) rfl (by decide) (by decide),
   by decide, by decide, by decide⟩

theorem process_all_collected (env : FuzzyEnv) (cfg : AppConfig)
    (files : String → Option Sheet) :
    (process_all env cfg files).collected
      = (enabled_competitors cfg).map
          (fun c => (c.name, collect_competitor_data env cfg c (files c.name))) := by
  simp only [process_all]
  split <;> rfl

theorem process_all_ccs (env : FuzzyEnv) (cfg : AppConfig)
    (files : String → Option Sheet) :
    (process_all env cfg files).city_competitors
      = build_city_competitors
          ((enabled_competitors cfg).map
            (fun c => (c.name, collect_competitor_data env cfg c (files c.name)))) cfg := by
  simp only [process_all]
  split <;> rfl

theorem process_all_results (env : FuzzyEnv) (cfg : AppConfig)
    (files : String → Option Sheet) (h : cfg.output_file ≠ "") :
    (process_all env cfg files).results
      = (enabled_competitors cfg).map (fun comp =>
          { success := true, competitor := comp.name,
            processed_cities :=
              ((((enabled_competitors cfg).map
                  (fun c => (c.name, collect_competitor_data env cfg c (files c.name)))).lookup
                    comp.name).getD []).length,
            errors := ([] : List String) }) := by
  simp only [process_all, generate, if_neg h]

theorem lookup_map_name_eq {α : Type} (g : CompetitorConfig → α) (a : α)
    (l : List CompetitorConfig) (name : String)
    (hex : ∃ c ∈ l, c.name = name) (hval : ∀ c ∈ l, c.name = name → g c = a) :
    (l.map (fun c => (c.name, g c))).lookup name = some a := by
  induction l with
  | nil => rcases hex with ⟨c, hc, _⟩; cases hc
  | cons hd tl ih =>
    by_cases hn : name = hd.name
    · have hb : (name == hd.name) = true := beq_iff_eq.mpr hn
      simp only [List.map_cons, List.lookup, hb]
      rw [hval hd (by simp) hn.symm]
    · have hb : (name == hd.name) = false := by simp [hn]
      simp only [List.map_cons, List.lookup, hb]
      refine ih ?_ (fun c hc hcn => hval c (by simp [hc]) hcn)
      rcases hex with ⟨c, hc, hcn⟩
      rcases List.mem_cons.mp hc with hc | hc
      · exact absurd (hc ▸ hcn).symm hn
      · exact ⟨c, hc, hcn⟩

theorem mem_of_lookup_map_name {α : Type} (g : CompetitorConfig → α)
    (l : List CompetitorConfig) (name : String) (v : α)
    (h : (l.map (fun c => (c.name, g c))).lookup name = some v) :
    ∃ c ∈ l, c.name = name := by
  induction l with
  | nil => cases h
  | cons hd tl ih =>
    by_cases hn : name = hd.name
    · exact ⟨hd, by simp, hn.symm⟩
    · have hb : (name == hd.name) = false := by simp [hn]
      simp only [List.map_cons, List.lookup, hb] at h
      rcases ih h with ⟨c, hc, hcn⟩
      exact ⟨c, by simp [hc], hcn⟩

theorem lookup_map_graph {α : Type} (f : String → α) (xs : List String)
    (city : String) (l : α)
    (h : (xs.map (fun c => (c, f c))).lookup city = some l) : l = f city := by
  induction xs with
  | nil => cases h
  | cons hd tl ih =>
    by_cases hc : city = hd
    · have hb : (city == hd) = true := beq_iff_eq.mpr hc
      simp only [List.map_cons, List.lookup, hb] at h
      cases h
      rw [hc]
    · have hb : (city == hd) = false := by simp [hc]
      simp only [List.map_cons, List.lookup, hb] at h
      exact ih h

/-- C1 (amended): when an enabled competitor's source file is missing or
unreadable, `process_all` still processes every other competitor and that
competitor contributes an empty collected set; however the failure is only
logged — every per-competitor result record returned by `process_all` has
`success = true` and an empty `errors` list, so the failure is **not** recorded
in the error list returned to the caller. -/
theorem claim_C1_missing_file_nonfatal (env : FuzzyEnv) (cfg : AppConfig)
    (files : String → Option Sheet) (comp : CompetitorConfig)
    (hmem : comp ∈ cfg.competitors) (hen : comp.enabled = true)
    (hfile : files comp.name = none) (hout : cfg.output_file ≠ "") :
    (process_all env cfg files).collected.lookup comp.name = some []
    ∧ (process_all env cfg files).results.map (fun r => r.competitor)
        = (enabled_competitors cfg).map (fun c => c.name)
    ∧ ∀ r ∈ (process_all env cfg files).results, r.errors = [] ∧ r.success = true := by
  have hmemE : comp ∈ enabled_competitors cfg := by
    rw [enabled_competitors]
    exact List.mem_filter.mpr ⟨hmem, by simp [hen]⟩
  refine ⟨?_, ?_, ?_⟩
  · rw [process_all_collected]
    refine lookup_map_name_eq _ _ _ _ ⟨comp, hmemE, rfl⟩ ?_
    intro c _hc hcn
    rw [hcn, hfile]
    rfl
  · rw [process_all_results env cfg files hout, List.map_map]
    rfl
  · intro r hr
    rw [process_all_results env cfg files hout] at hr
    rcases List.mem_map.mp hr with ⟨c, _hc, hceq⟩
    rw [← hceq]
    exact ⟨rfl, rfl⟩

/-- C1 counterexample: competitor "A" is enabled and its file is missing, yet
the result list returned by `process_all` records no error for it — its entry
is `success = true, errors = []` (the failure is only logged), while "B" is
still processed normally.  This refutes "the failure is recorded in the
per-competitor error list returned to the caller". -/
theorem claim_C1_counterexample :
    c1files "A" = none
    ∧ (process_all exactEnv c1cfg c1files).collected.lookup "A" = some []
    ∧ (process_all exactEnv c1cfg c1files).results.map
        (fun r => (r.competitor, r.success, r.errors))
        = [("A", true, []), ("B", true, [])]
    ∧ (process_all exactEnv c1cfg c1files).results.map (fun r => r.processed_cities)
        = [0, 1] :=
  ⟨rfl, by decide, by decide, by decide⟩

theorem claim_C1_witness :
    (process_all exactEnv c1cfg c1files).collected.lookup "A" = some []
    ∧ (process_all exactEnv c1cfg c1files).results.map (fun r => r.competitor)
        = (enabled_competitors c1cfg).map (fun c => c.name)
    ∧ ∀ r ∈ (process_all exactEnv c1cfg c1files).results,
        r.errors = [] ∧ r.success = true :=
  claim_C1_missing_file_nonfatal exactEnv c1cfg c1files c1compA
    (by decide) rfl rfl (by decide)

/-- C4: the presence list of a city contains a configured competitor iff its
collected field map for that city exists and has at least one non-absent field
value (a field map whose six values are all `None` counts as absent), and the
list preserves the configured competitor order (it is a sublist of the
configured competitor list).  Competitor names are assumed distinct, as they
are the keys of the configuration's competitor dict. -/
theorem claim_C4_presence_iff (env : FuzzyEnv) (cfg : AppConfig)
    (files : String → Option Sheet) (comp : CompetitorConfig) (city : String)
    (l : List CompetitorConfig)
    (hnodup : (cfg.competitors.map (fun c => c.name)).Nodup)
    (hcomp : comp ∈ cfg.competitors)
    (hl : (process_all env cfg files).city_competitors.lookup city = some l) :
    (comp ∈ l ↔ ∃ rd,
        (((process_all env cfg files).collected.lookup comp.name).getD []).lookup city
          = some rd ∧ rd.hasValue = true)
    ∧ l.Sublist cfg.competitors := by
  rw [process_all_ccs] at hl
  rw [process_all_collected]
  set collected := (enabled_competitors cfg).map
    (fun c => (c.name, collect_competitor_data env cfg c (files c.name))) with hcollected
  have hleq : l = (enabled_competitors cfg).filter (fun comp =>
      match (Option.getD (collected.lookup comp.name) []).lookup city with
      | some rd => rd.hasValue
      | none => false) := by
    have := lookup_map_graph (fun city => (enabled_competitors cfg).filter (fun comp =>
      match (Option.getD (collected.lookup comp.name) []).lookup city with
      | some rd => rd.hasValue
      | none => false)) cfg.cities city
      ((enabled_competitors cfg).filter (fun comp =>
        match (Option.getD (collected.lookup comp.name) []).lookup city with
        | some rd => rd.hasValue
        | none => false))
    exact lookup_map_graph _ cfg.cities city l hl
  constructor
  · rw [hleq]
    constructor
    · intro hmem
      have := List.mem_filter.mp hmem
      rcases this with ⟨_hmemE, hcond⟩
      revert hcond
      cases hlk : (Option.getD (collected.lookup comp.name) []).lookup city with
      | none => intro hcond; simp at hcond
      | some rd => intro hcond; exact ⟨rd, rfl, by simpa using hcond⟩
    · rintro ⟨rd, hrd, hval⟩
      have hmemE : comp ∈ enabled_competitors cfg := by
        cases hlkname : collected.lookup comp.name with
        | none => rw [hlkname] at hrd; cases hrd
        | some m =>
          rcases mem_of_lookup_map_name _ _ _ _ (hcollected ▸ hlkname) with ⟨c, hc, hcn⟩
          have hinj := List.inj_on_of_nodup_map hnodup
          have hcm : c ∈ cfg.competitors :=
            List.Sublist.mem hc (List.filter_sublist cfg.competitors)
          have : c = comp := hinj hcm hcomp hcn
          exact this ▸ hc
      refine List.mem_filter.mpr ⟨hmemE, ?_⟩
      rw [hrd]
      simpa using hval
  · rw [hleq]
    exact (List.filter_sublist _).trans (List.filter_sublist _)

theorem claim_C4_witness :
    (c4compA ∈ [c4compA] ↔ ∃ rd,
        (((process_all exactEnv c4cfg c4files).collected.lookup "A").getD []).lookup "M"
          = some rd ∧ rd.hasValue = true)
    ∧ [c4compA].Sublist c4cfg.competitors :=
  claim_C4_presence_iff exactEnv c4cfg c4files c4compA "M" [c4compA]
    (by decide) (by decide) (by decide)

theorem markupFold_eq (cname : String) (mks : List MarkupRow) :
    ∀ (m : List (String × Nat)) (rs : List (Nat × RowEntry)) (cur : Nat),
      mks.foldl
        (fun acc2 mk =>
          (acc2.1 ++ [(cname ++ "|" ++ mk.name, acc2.2.2)],
           acc2.2.1 ++ [(acc2.2.2, RowEntry.markupRowEntry cname mk.name)],
           acc2.2.2 + 1)) (m, rs, cur)
      = (m ++ specMkMap cname mks cur, rs ++ specMkRows cname mks cur, cur + mks.length) := by
  induction mks with
  | nil => intro m rs cur; simp [specMkMap, specMkRows]
  | cons mk rest ih =>
    intro m rs cur
    rw [List.foldl_cons, ih]
    simp [specMkMap, specMkRows, Nat.add_assoc, Nat.add_comm, Nat.add_left_comm]

theorem competitorRowsLoop_eq (comps : List CompetitorConfig) :
    ∀ start, competitorRowsLoop comps start
      = (specCompMap comps start, specCompRows comps start, start + presenceSpan comps) := by
  have hgen : ∀ (comps : List CompetitorConfig) (m : List (String × Nat))
      (rs : List (Nat × RowEntry)) (cur : Nat),
      comps.foldl
        (fun acc comp =>
          let m := acc.1 ++ [(comp.name, acc.2.2)]
          let rs := acc.2.1 ++ [(acc.2.2, RowEntry.competitorRow comp.name)]
          let cur := acc.2.2 + 1
          comp.markup_rows.foldl
            (fun acc2 mk =>
              (acc2.1 ++ [(comp.name ++ "|" ++ mk.name, acc2.2.2)],
               acc2.2.1 ++ [(acc2.2.2, RowEntry.markupRowEntry comp.name mk.name)],
               acc2.2.2 + 1))
            (m, rs, cur)) (m, rs, cur)
      = (m ++ specCompMap comps cur, rs ++ specCompRows comps cur,
         cur + presenceSpan comps) := by
    intro comps
    induction comps with
    | nil => intro m rs cur; simp [specCompMap, specCompRows, presenceSpan]
    | cons c rest ih =>
      intro m rs cur
      rw [List.foldl_cons]
      show rest.foldl _ (c.markup_rows.foldl _
        (m ++ [(c.name, cur)], rs ++ [(cur, RowEntry.competitorRow c.name)], cur + 1)) = _
      rw [markupFold_eq, ih]
      simp [specCompMap, specCompRows, presenceSpan, competitorSpan,
        Nat.add_assoc, Nat.add_comm, Nat.add_left_comm]
  intro start
  rw [competitorRowsLoop, hgen]
  simp

theorem layoutCityBlock_eq (cfg : AppConfig) (ccs : List (String × List CompetitorConfig))
    (city : String) (acc : LayoutAcc) :
    layoutCityBlock cfg ccs city acc
      = { row_map := acc.row_map
            ++ [(city, specCityMap cfg ((ccs.lookup city).getD []) acc.current_row)],
          rows := acc.rows
            ++ specCityBlockRows cfg ((ccs.lookup city).getD []) city acc.current_row,
          current_row := acc.current_row + blockLen cfg ((ccs.lookup city).getD []) } := by
  rw [layoutCityBlock]
  rw [competitorRowsLoop_eq]
  have harith : acc.current_row + (2 + presenceSpan ((ccs.lookup city).getD [])) - 1
      = acc.current_row + (1 + presenceSpan ((ccs.lookup city).getD [])) := by omega
  have harith2 : acc.current_row + 1 + 1 + presenceSpan ((ccs.lookup city).getD []) - 1
      = acc.current_row + (1 + presenceSpan ((ccs.lookup city).getD [])) := by omega
  have harith3 : (1 : Nat) + (2 + presenceSpan ((ccs.lookup city).getD []))
      = 3 + presenceSpan ((ccs.lookup city).getD []) := by omega
  cases hic : cfg.output_config.include_average with
  | false =>
    simp [specCityBlockRows, specCityMap, blockLen, hic, Nat.add_assoc]
  | true =>
    cases hoe : cfg.own_company.enabled with
    | false =>
      simp [specCityBlockRows, specCityMap, blockLen, avgCellsSpec, hic, hoe,
        harith, harith2, harith3, Nat.add_assoc, Nat.add_comm, Nat.add_left_comm]
    | true =>
      simp [specCityBlockRows, specCityMap, blockLen, avgCellsSpec, hic, hoe,
        harith, harith2, harith3, Nat.add_assoc, Nat.add_comm, Nat.add_left_comm]

theorem layoutLoop_rows_eq (cfg : AppConfig)
    (ccs : List (String × List CompetitorConfig)) :
    ∀ (cities : List String) (acc : LayoutAcc),
      (layoutLoop cfg ccs cities acc).rows
        = acc.rows ++ specLayoutRows cfg ccs cities acc.current_row := by
  intro cities
  induction cities with
  | nil => intro acc; simp [layoutLoop, specLayoutRows]
  | cons city rest ih =>
    intro acc
    cases rest with
    | nil =>
      rw [layoutLoop]
      simp only [List.isEmpty_nil, if_true]
      rw [layoutLoop, layoutCityBlock_eq]
      simp [specLayoutRows]
    | cons c2 rest2 =>
      rw [layoutLoop]
      simp only [List.isEmpty_cons, if_false, Bool.false_eq_true]
      rw [ih, layoutCityBlock_eq]
      simp only [specLayoutRows]
      simp [List.append_assoc]

/-- C7: the layout emits row 1 (title) followed by the city blocks of the
cities in lexicographic order — per city a header row, a city-name row, one row
per present competitor in presence order with its markup rows immediately
following (`specCityBlockRows`/`specCompRows`), with exactly one blank
separator row between consecutive cities and none after the last
(`specLayoutRows` advances by `blockLen + 1` between cities and by nothing
after the last); the sorted city sequence is sorted, is a permutation of the
configured cities, and is independent of configuration insertion order. -/
theorem claim_C7_layout_order (cfg : AppConfig)
    (ccs : List (String × List CompetitorConfig)) :
    (create_empty_rows cfg ccs).rows
        = (1, RowEntry.titleRow) :: specLayoutRows cfg ccs (sortedCities cfg) 2
    ∧ (sortedCities cfg).Sorted (fun a b => strLe a b = true)
    ∧ (sortedCities cfg).Perm cfg.cities
    ∧ ∀ cities2 : List String, cities2.Perm cfg.cities →
        sortedCities { cfg with cities := cities2 } = sortedCities cfg := by
  refine ⟨?_, ?_, ?_, ?_⟩
  · rw [create_empty_rows, layoutLoop_rows_eq]
    rfl
  · exact List.sorted_insertionSort _ _
  · exact List.perm_insertionSort _ _
  · intro cities2 hperm
    exact List.eq_of_perm_of_sorted
      (((List.perm_insertionSort _ _).trans hperm).trans
        (List.perm_insertionSort _ _).symm)
      (List.sorted_insertionSort _ _) (List.sorted_insertionSort _ _)

theorem claim_C7_witness :
    (create_empty_rows c7cfg c7ccs).rows
      = [(1, RowEntry.titleRow),
         (2, RowEntry.header), (3, RowEntry.cityName "A"),
         (4, RowEntry.averageRow
           [("B", .blank), ("C", .blank), ("D", .blank),
            ("E", .blank), ("F", .blank), ("G", .blank)]),
         (5, RowEntry.ownRow "Новая Витэка"),
         (7, RowEntry.header), (8, RowEntry.cityName "B"),
         (9, RowEntry.averageRow
           [("B", .blank), ("C", .blank), ("D", .blank),
            ("E", .blank), ("F", .blank), ("G", .blank)]),
         (10, RowEntry.ownRow "Новая Витэка")]
    ∧ sortedCities c7cfg = ["A", "B"] :=
  ⟨((claim_C7_layout_order c7cfg c7ccs).1).trans (by decide), by decide⟩

/-- C8: with the include-average option enabled, each city block carries an
average row directly under the competitor rows whose cells, when the city has
at least one present competitor, hold `AVERAGE` formulas ranging exactly from
the first competitor row (`start + 2`) to the last markup row of the last
competitor (`start + 1 + presenceSpan`), inclusive; when the city has zero
present competitors, the header and city-name rows are still emitted but the
average-row cells contain no formula. -/
theorem claim_C8_average_row (cfg : AppConfig)
    (ccs : List (String × List CompetitorConfig)) (city : String) (acc : LayoutAcc)
    (havg : cfg.output_config.include_average = true) :
    (layoutCityBlock cfg ccs city acc).rows
      = acc.rows
        ++ [(acc.current_row, RowEntry.header),
            (acc.current_row + 1, RowEntry.cityName city)]
        ++ specCompRows ((ccs.lookup city).getD []) (acc.current_row + 2)
        ++ (acc.current_row + 2 + presenceSpan ((ccs.lookup city).getD []),
            RowEntry.averageRow
              (avgCellsSpec ((ccs.lookup city).getD []) (acc.current_row + 2)
                (acc.current_row + 1 + presenceSpan ((ccs.lookup city).getD []))))
          :: (if cfg.own_company.enabled then
                [(acc.current_row + 3 + presenceSpan ((ccs.lookup city).getD []),
                  RowEntry.ownRow cfg.own_company.name)]
              else [])
    ∧ ((ccs.lookup city).getD [] = [] →
        avgCellsSpec ((ccs.lookup city).getD []) (acc.current_row + 2)
            (acc.current_row + 1 + presenceSpan ((ccs.lookup city).getD []))
          = (List.range FIELDS.length).map
              (fun fi => (get_column_letter (2 + fi), CellContent.blank)))
    ∧ ((ccs.lookup city).getD [] ≠ [] →
        avgCellsSpec ((ccs.lookup city).getD []) (acc.current_row + 2)
            (acc.current_row + 1 + presenceSpan ((ccs.lookup city).getD []))
          = (List.range FIELDS.length).map
              (fun fi => (get_column_letter (2 + fi),
                CellContent.averageFormula (get_column_letter (2 + fi))
                  (acc.current_row + 2)
                  (acc.current_row + 1 + presenceSpan ((ccs.lookup city).getD [])))))
    ∧ ∀ col f1 l1, (CellContent.averageFormula col f1 l1).render
        = some (.text ("=AVERAGE(" ++ col ++ toString f1 ++ ":" ++ col ++ toString l1 ++ ")")) := by
  refine ⟨?_, ?_, ?_, fun col f1 l1 => rfl⟩
  · rw [layoutCityBlock_eq]
    simp [specCityBlockRows, havg]
  · intro hempty
    simp [avgCellsSpec, hempty]
  · intro hne
    simp [avgCellsSpec, List.isEmpty_iff, hne]

theorem claim_C8_witness :
    c8cfg.output_config.include_average = true
    ∧ (layoutCityBlock c8cfg [("X", [c6comp])] "X" c8acc).rows
        = [(2, RowEntry.header), (3, RowEntry.cityName "X"),
           (4, RowEntry.competitorRow "Y"),
           (5, RowEntry.markupRowEntry "Y" "+10%"),
           (6, RowEntry.markupRowEntry "Y" "zero"),
           (7, RowEntry.averageRow
             [("B", .averageFormula "B" 4 6), ("C", .averageFormula "C" 4 6),
              ("D", .averageFormula "D" 4 6), ("E", .averageFormula "E" 4 6),
              ("F", .averageFormula "F" 4 6), ("G", .averageFormula "G" 4 6)]),
           (8, RowEntry.ownRow "Новая Витэка")]
    ∧ (layoutCityBlock c8cfg [("X", [c6comp])] "Z" c8acc).rows
        = [(2, RowEntry.header), (3, RowEntry.cityName "Z"),
           (4, RowEntry.averageRow
             [("B", .blank), ("C", .blank), ("D", .blank),
              ("E", .blank), ("F", .blank), ("G", .blank)]),
           (5, RowEntry.ownRow "Новая Витэка")] :=
  ⟨rfl,
   ((claim_C8_average_row c8cfg [("X", [c6comp])] "X" c8acc rfl).1).trans (by decide),
   ((claim_C8_average_row c8cfg [("X", [c6comp])] "Z" c8acc rfl).1).trans (by decide)⟩

theorem markupRowsLoop_fst : ∀ (l : List CompetitorConfig) (r : Nat),
    (markupRowsLoop l r).1 = markupAssignRows l r := by
  intro l
  induction l with
  | nil => intro r; rfl
  | cons c rest ih =>
    intro r
    rw [markupRowsLoop, markupAssignRows]
    simp [ih]

theorem markupRowEvents_dataCell (comp : CompetitorConfig)
    (cityMap : List (String × Nat)) (col : String) (row : Nat) :
    ∀ (l : List MarkupRow), ∀ e ∈ markupRowEvents comp cityMap col row l,
      e.isDataCell = true := by
  intro l
  induction l with
  | nil => intro e he; cases he
  | cons mk rest ih =>
    intro e he
    rw [markupRowEvents] at he
    rcases List.mem_append.mp he with he | he
    · cases hlk : cityMap.lookup (comp.name ++ "|" ++ mk.name) with
      | none => rw [hlk] at he; cases he
      | some n =>
        rw [hlk] at he
        rcases List.mem_singleton.mp he with rfl
        rfl
    · exact ih e he

theorem write_events_tail (comp : CompetitorConfig) (city field : String)
    (value : Option CellValue) (st : GenState) :
    ∃ tail, (write_competitor_data comp city field value st).events = st.events ++ tail
      ∧ ∀ e ∈ tail, e.isDataCell = true := by
  rw [write_competitor_data]
  cases hc : st.row_map.lookup city with
  | none => exact ⟨[], by simp, by intro e he; cases he⟩
  | some cityMap =>
    by_cases hwb : st.wbExists
    · simp only [hwb, Bool.not_true, Bool.false_eq_true, if_false]
      cases hn : cityMap.lookup comp.name with
      | none => exact ⟨[], by simp, by intro e he; cases he⟩
      | some row =>
        by_cases hf : FIELDS.contains field
        · simp only [hf, Bool.not_true, Bool.false_eq_true, if_false]
          refine ⟨_, rfl, ?_⟩
          intro e he
          rcases List.mem_cons.mp he with rfl | he
          · rfl
          · exact markupRowEvents_dataCell comp cityMap _ row comp.markup_rows e he
        · simp only [Bool.eq_false_iff.mpr hf, Bool.not_false, if_true]
          exact ⟨[], by simp, by intro e he; cases he⟩
    · simp only [Bool.eq_false_iff.mpr hwb, Bool.not_false, if_true]
      exact ⟨[], by simp, by intro e he; cases he⟩

theorem write_mrm (comp : CompetitorConfig) (city field : String)
    (value : Option CellValue) (st : GenState) :
    (write_competitor_data comp city field value st).markups_row_map
      = st.markups_row_map := by
  rw [write_competitor_data]
  cases hc : st.row_map.lookup city with
  | none => rfl
  | some cityMap =>
    by_cases hwb : st.wbExists
    · simp only [hwb, Bool.not_true, Bool.false_eq_true, if_false]
      cases hn : cityMap.lookup comp.name with
      | none => rfl
      | some row =>
        by_cases hf : FIELDS.contains field
        · simp only [hf, Bool.not_true, Bool.false_eq_true, if_false]
        · simp only [Bool.eq_false_iff.mpr hf, Bool.not_false, if_true]
    · simp only [Bool.eq_false_iff.mpr hwb, Bool.not_false, if_true]

theorem foldl_write_tail {β : Type} (f : GenState → β → GenState)
    (hf : ∀ st b,
      (∃ tail, (f st b).events = st.events ++ tail ∧ ∀ e ∈ tail, e.isDataCell = true)
      ∧ (f st b).markups_row_map = st.markups_row_map) :
    ∀ (l : List β) (st : GenState),
      (∃ tail, (l.foldl f st).events = st.events ++ tail
        ∧ ∀ e ∈ tail, e.isDataCell = true)
      ∧ (l.foldl f st).markups_row_map = st.markups_row_map := by
  intro l
  induction l with
  | nil => intro st; exact ⟨⟨[], by simp, by intro e he; cases he⟩, rfl⟩
  | cons b rest ih =>
    intro st
    rw [List.foldl_cons]
    rcases hf st b with ⟨⟨t1, ht1, ht1d⟩, hm1⟩
    rcases ih (f st b) with ⟨⟨t2, ht2, ht2d⟩, hm2⟩
    refine ⟨⟨t1 ++ t2, ?_, ?_⟩, ?_⟩
    · rw [ht2, ht1, List.append_assoc]
    · intro e he
      rcases List.mem_append.mp he with he | he
      exacts [ht1d e he, ht2d e he]
    · rw [hm2, hm1]

theorem specMkRows_refs (cname : String) (mks : List MarkupRow) :
    ∀ r, ∀ p ∈ specMkRows cname mks r, p.2.refsMarkups = false := by
  induction mks with
  | nil => intro r p hp; cases hp
  | cons mk rest ih =>
    intro r p hp
    rcases List.mem_cons.mp hp with rfl | hp
    · rfl
    · exact ih (r + 1) p hp

theorem specCompRows_refs (l : List CompetitorConfig) :
    ∀ r, ∀ p ∈ specCompRows l r, p.2.refsMarkups = false := by
  induction l with
  | nil => intro r p hp; cases hp
  | cons c rest ih =>
    intro r p hp
    rw [specCompRows] at hp
    rcases List.mem_cons.mp hp with rfl | hp
    · rfl
    · rcases List.mem_append.mp hp with hp | hp
      · exact specMkRows_refs c.name c.markup_rows (r + 1) p hp
      · exact ih _ p hp

theorem avgCells_any_refs (l : List CompetitorConfig) (f1 l1 : Nat) :
    ((avgCellsSpec l f1 l1).any (fun p => p.2.refsMarkups)) = false := by
  rw [avgCellsSpec]
  by_cases h : l.isEmpty <;> simp [h, CellContent.refsMarkups]

theorem specCityBlockRows_refs (cfg : AppConfig) (l : List CompetitorConfig)
    (city : String) (start : Nat) :
    ∀ p ∈ specCityBlockRows cfg l city start, p.2.refsMarkups = false := by
  intro p hp
  rw [specCityBlockRows] at hp
  rcases List.mem_append.mp hp with hp | hp
  · rcases List.mem_append.mp hp with hp | hp
    · rcases List.mem_cons.mp hp with rfl | hp
      · rfl
      · rcases List.mem_singleton.mp hp with rfl
        rfl
    · exact specCompRows_refs l _ p hp
  · by_cases hic : cfg.output_config.include_average
    · rw [if_pos hic] at hp
      rcases List.mem_cons.mp hp with rfl | hp
      · exact avgCells_any_refs l _ _
      · by_cases hoe : cfg.own_company.enabled
        · rw [if_pos hoe] at hp
          rcases List.mem_singleton.mp hp with rfl
          rfl
        · rw [if_neg hoe] at hp
          cases hp
    · rw [if_neg hic] at hp
      cases hp

theorem specLayoutRows_refs (cfg : AppConfig)
    (ccs : List (String × List CompetitorConfig)) :
    ∀ (cities : List String) (start : Nat),
      ∀ p ∈ specLayoutRows cfg ccs cities start, p.2.refsMarkups = false := by
  intro cities
  induction cities with
  | nil => intro start p hp; cases hp
  | cons city rest ih =>
    intro start p hp
    rw [specLayoutRows] at hp
    rcases List.mem_append.mp hp with hp | hp
    · exact specCityBlockRows_refs cfg _ city start p hp
    · exact ih _ p hp

theorem create_empty_rows_refs (cfg : AppConfig)
    (ccs : List (String × List CompetitorConfig)) :
    ∀ p ∈ (create_empty_rows cfg ccs).rows, p.2.refsMarkups = false := by
  intro p hp
  rw [create_empty_rows, layoutLoop_rows_eq] at hp
  rcases List.mem_cons.mp (by simpa using hp) with rfl | hp
  · rfl
  · exact specLayoutRows_refs cfg ccs _ _ p hp

theorem markupRowsLoop_refs : ∀ (l : List CompetitorConfig) (r : Nat),
    ∀ e ∈ (markupRowsLoop l r).2, e.refsMarkups = false := by
  intro l
  induction l with
  | nil => intro r e he; cases he
  | cons c rest ih =>
    intro r e he
    rw [markupRowsLoop] at he
    rcases List.mem_append.mp he with he | he
    · rcases List.mem_cons.mp he with rfl | he
      · rfl
      · rcases List.mem_cons.mp he with rfl | he
        · rfl
        · rcases List.mem_map.mp he with ⟨fi, _, rfl⟩
          rfl
    · exact ih (r + 1) e he

theorem add_markups_refs (cfg : AppConfig) :
    ∀ e ∈ (add_markups_sheet_events cfg).2, e.refsMarkups = false := by
  intro e he
  rw [add_markups_sheet_events] at he
  by_cases hms : cfg.output_config.markups_sheet
  · rw [if_neg (by simp [hms])] at he
    rcases List.mem_cons.mp he with rfl | he
    · rfl
    · rcases List.mem_cons.mp he with rfl | he
      · rfl
      · rcases List.mem_append.mp he with he | he
        · rcases List.mem_map.mp he with ⟨fi, _, rfl⟩
          rfl
        · exact markupRowsLoop_refs _ 4 e he
  · rw [if_pos (by simp [Bool.eq_false_iff.mpr hms])] at he
    cases he

theorem markupRowsLoop_assign_iff : ∀ (l : List CompetitorConfig) (r0 : Nat)
    (name : String) (r : Nat),
    (Event.assignMarkupRow name r ∈ (markupRowsLoop l r0).2)
      ↔ (name, r) ∈ (markupRowsLoop l r0).1 := by
  intro l
  induction l with
  | nil => intro r0 name r; simp [markupRowsLoop]
  | cons c rest ih =>
    intro r0 name r
    simp only [markupRowsLoop, List.mem_append, List.mem_cons, List.mem_map]
    rw [ih (r0 + 1) name r]
    simp

theorem add_markups_assign_iff (cfg : AppConfig)
    (hms : cfg.output_config.markups_sheet = true) (name : String) (r : Nat) :
    (Event.assignMarkupRow name r ∈ (add_markups_sheet_events cfg).2)
      ↔ (name, r) ∈ (add_markups_sheet_events cfg).1 := by
  simp only [add_markups_sheet_events, hms, Bool.not_true, Bool.false_eq_true, if_false,
    List.mem_cons, List.mem_append, List.mem_map]
  rw [markupRowsLoop_assign_iff]
  simp

theorem writeCollected_tail (collected : List (String × List (String × RowData)))
    (ccs : List (String × List CompetitorConfig)) (comp : CompetitorConfig)
    (st : GenState) :
    (∃ tail, (writeCollected collected ccs comp st).events = st.events ++ tail
      ∧ ∀ e ∈ tail, e.isDataCell = true)
    ∧ (writeCollected collected ccs comp st).markups_row_map = st.markups_row_map := by
  rw [writeCollected]
  refine foldl_write_tail _ ?_ _ st
  intro st2 cityFields
  by_cases hin : comp ∈ (ccs.lookup cityFields.1).getD []
  · rw [if_pos hin]
    refine foldl_write_tail _ ?_ _ st2
    intro st3 fv
    exact ⟨write_events_tail comp cityFields.1 fv.1 fv.2 st3,
      write_mrm comp cityFields.1 fv.1 fv.2 st3⟩
  · rw [if_neg hin]
    exact ⟨⟨[], by simp, by intro e he; cases he⟩, rfl⟩

theorem process_all_final_shape (env : FuzzyEnv) (cfg : AppConfig)
    (files : String → Option Sheet) (hout : cfg.output_file ≠ "") :
    (∃ ds, (process_all env cfg files).finalState.events
        = ((create_empty_rows cfg (build_city_competitors
              ((enabled_competitors cfg).map
                (fun c => (c.name, collect_competitor_data env cfg c (files c.name))))
              cfg)).rows.map (fun p => Event.layoutRow p.1 p.2)
           ++ (add_markups_sheet_events cfg).2) ++ ds
      ∧ ∀ e ∈ ds, e.isDataCell = true)
    ∧ (process_all env cfg files).finalState.markups_row_map
        = (add_markups_sheet_events cfg).1 := by
  simp only [process_all, generate, if_neg hout]
  set collected := (enabled_competitors cfg).map
    (fun c => (c.name, collect_competitor_data env cfg c (files c.name))) with hcoll
  set ccs := build_city_competitors collected cfg with hccs
  have h := foldl_write_tail (fun st comp => writeCollected collected ccs comp st)
    (fun st comp => writeCollected_tail collected ccs comp st) (enabled_competitors cfg)
  exact ⟨(h _).1, (h _).2⟩

/-- C9: in every full pipeline run with the markups sheet enabled, the markups
sheet is built and the markups row map (one row per enabled competitor,
assigned in configured order from the fixed offset 4) is fully populated
strictly before any data-cell write; the write trace is a prefix containing
all the `assignMarkupRow` events and no markups-sheet-referencing formula,
followed only by data-cell writes. -/
theorem claim_C9_markups_before_writes (env : FuzzyEnv) (cfg : AppConfig)
    (files : String → Option Sheet) (hout : cfg.output_file ≠ "")
    (hms : cfg.output_config.markups_sheet = true) :
    MarkupsProtocol env cfg files := by
  rcases process_all_final_shape env cfg files hout with ⟨⟨ds, hds, hdsd⟩, hmrm⟩
  refine ⟨_, ds, hds, ?_, hdsd, ?_, ?_⟩
  · intro e he
    rcases List.mem_append.mp he with he | he
    · rcases List.mem_map.mp he with ⟨p, hp, rfl⟩
      exact create_empty_rows_refs cfg _ p hp
    · exact add_markups_refs cfg e he
  · intro name r
    rw [hmrm]
    rw [← add_markups_assign_iff cfg hms name r]
    constructor
    · intro h
      rcases List.mem_append.mp h with h | h
      · rcases List.mem_map.mp h with ⟨p, _, hp⟩
        cases hp
      · exact h
    · intro h
      exact List.mem_append_right _ h
  · rw [hmrm, add_markups_sheet_events, if_neg (by simp [hms]), markupRowsLoop_fst]

theorem claim_C9_witness :
    MarkupsProtocol exactEnv c1cfg c1files
    ∧ (process_all exactEnv c1cfg c1files).finalState.markups_row_map
        = [("A", 4), ("B", 5)] :=
  ⟨claim_C9_markups_before_writes exactEnv c1cfg c1files (by decide) rfl, by decide⟩

end Viteka
